import Mathlib

/-!
Verification of the versioned-contract example (lazy per-record schema migration).

Shallow embedding of `src/versioned_extended/src/{balances.rs, contracts.rs, lib.rs}`:
  * `Balances` / `BalancesV1` / `VersionedBalances` with `upgrade`, `need_upgrade`
    and the projection `get_balance` (whose `unimplemented!()` arm is modelled
    as `none`);
  * `ContractV0` / `Contract` / `VersionedContract` with `contract_mut`,
    `deposit`, `get_nonce`, `get_deposit`, `add_hash` (whose `unimplemented!()`
    arm is modelled as `none`) and the contract-level `get_balance` (whose
    `expect` on a missing key is modelled as `none`).

Machine integers `u128` and `u64` are modelled as `Nat` with explicit wrapping
`% 2 ^ 128` / `% 2 ^ 64` at the arithmetic operations of the source
(`+=` on a funder balance, `+= 1` on the nonce).  Maps (`UnorderedMap`,
`HashMap`) are modelled as functions into `Option`, which captures the
`get` / `insert` / `entry().or_default()` operations used by the source.
Rust methods taking `&self` are pure functions of the state and by typing
cannot modify it; `state_after_get_balance` makes that explicit for the
read path of `get_balance`.
-/

abbrev AccountId := String

abbrev Balance := Nat

def u128MOD : Nat := 2 ^ 128

def u64MOD : Nat := 2 ^ 64

/-- Entity record, oldest shape (`Balances` in balances.rs). -/
structure Balances where
  deposited : Nat
  total : Nat
  deriving Repr, DecidableEq

/-- Entity record, latest shape (`BalancesV1` in balances.rs): adds `earned`. -/
structure BalancesV1 where
  deposited : Nat
  total : Nat
  earned : Nat
  deriving Repr, DecidableEq

/-- Tagged union over entity-record shapes (`VersionedBalances` in balances.rs). -/
inductive VersionedBalances where
  | V0 : Balances → VersionedBalances
  | V1 : BalancesV1 → VersionedBalances
  deriving Repr, DecidableEq

/-- `VersionedBalances::upgrade` (balances.rs lines 33-47): V0 is carried to V1
with `earned = 0`; V1 is cloned unchanged. -/
def VersionedBalances.upgrade : VersionedBalances → VersionedBalances
  | .V0 bal => .V1 { deposited := bal.deposited, total := bal.total, earned := 0 }
  | .V1 bal => .V1 bal

/-- `VersionedBalances::need_upgrade` (balances.rs lines 49-54). -/
def VersionedBalances.need_upgrade : VersionedBalances → Bool
  | .V0 _ => true
  | .V1 _ => false

/-- `VersionedBalances::get_balance` (balances.rs lines 56-61): projects a V1
value; the `_ => unimplemented!()` arm (a panic) is modelled as `none`. -/
def VersionedBalances.get_balance : VersionedBalances → Option BalancesV1
  | .V1 bal => some bal
  | .V0 _ => none

/-- Aggregate root, oldest shape (`ContractV0` in contracts.rs). -/
structure ContractV0 where
  funders : AccountId → Option Balance
  hashes : String → Option VersionedBalances

/-- Aggregate root, current shape (`Contract` in contracts.rs): adds `nonce`. -/
structure Contract where
  funders : AccountId → Option Balance
  nonce : Nat
  hashes : String → Option VersionedBalances

/-- Tagged union over aggregate-root shapes (`VersionedContract` in lib.rs). -/
inductive VersionedContract where
  | V0 : ContractV0 → VersionedContract
  | V1 : Contract → VersionedContract

/-- `VersionedContract::contract_mut` (lib.rs lines 24-45): a V1 root is
returned as is; a V0 root is upgraded in place, moving `funders` and `hashes`
and installing `nonce = 0`.  Modelled as the upgraded current-shape state. -/
def VersionedContract.contract_mut : VersionedContract → Contract
  | .V1 contract => contract
  | .V0 contract =>
      { funders := contract.funders, nonce := 0, hashes := contract.hashes }

/-- `VersionedContract::funders` (lib.rs lines 47-52): non-upgrading accessor. -/
def VersionedContract.funders : VersionedContract → AccountId → Option Balance
  | .V0 contract => contract.funders
  | .V1 contract => contract.funders

/-- `VersionedContract::hashes` (lib.rs lines 54-59): non-upgrading accessor. -/
def VersionedContract.hashes : VersionedContract → String → Option VersionedBalances
  | .V0 contract => contract.hashes
  | .V1 contract => contract.hashes

/-- `VersionedContract::deposit` (lib.rs lines 78-86): upgrades the root via
`contract_mut`, then `*contract.funders.entry(account).or_default() += amount`
and `contract.nonce += 1`, with u128 / u64 wrapping arithmetic. -/
def VersionedContract.deposit (s : VersionedContract) (account : AccountId)
    (amount : Nat) : VersionedContract :=
  let contract := s.contract_mut
  let prev := (contract.funders account).getD 0
  VersionedContract.V1
    { contract with
      funders := fun x =>
        if x = account then some ((prev + amount) % u128MOD)
        else contract.funders x
      nonce := (contract.nonce + 1) % u64MOD }

/-- `VersionedContract::get_nonce` (lib.rs lines 88-93): 0 on a V0 root, the
stored counter on V1.  Takes `&self` in the source: it cannot mutate. -/
def VersionedContract.get_nonce : VersionedContract → Nat
  | .V0 _ => 0
  | .V1 contract => contract.nonce

/-- `VersionedContract::get_deposit` (lib.rs lines 95-97). -/
def VersionedContract.get_deposit (s : VersionedContract) (account : AccountId) :
    Option Balance :=
  s.funders account

/-- `VersionedContract::add_hash` (lib.rs lines 99-113): on a V0 root inserts
`VersionedBalances::V0 { deposited: 1, total: 1 }` under `k`; the
`_ => unimplemented!()` arm on a V1 root (a panic) is modelled as `none`. -/
def VersionedContract.add_hash : VersionedContract → String → Option VersionedContract
  | .V0 contract, k =>
      some (.V0 { contract with
        hashes := fun x =>
          if x = k then some (.V0 { deposited := 1, total := 1 })
          else contract.hashes x })
  | .V1 _, _ => none

/-- `VersionedContract::get_balance` (lib.rs lines 115-126): looks `k` up
(`expect("ERR_INVALID_KEY")` modelled as `none`), upgrades the value when
`need_upgrade()` holds, and projects it with the entity-level `get_balance`. -/
def VersionedContract.get_balance (s : VersionedContract) (k : String) :
    Option BalancesV1 :=
  match s.hashes k with
  | none => none
  | some versioned_option =>
      (if versioned_option.need_upgrade then versioned_option.upgrade
       else versioned_option).get_balance

/-- State of the contract after a `get_balance` call: the source method takes
`&self` (lib.rs line 115), so the state is unchanged — in particular no
upgraded record is written back into `hashes`. -/
def VersionedContract.state_after_get_balance (s : VersionedContract)
    (_k : String) : VersionedContract :=
  s

/-- Runs a sequence of `deposit` calls, each pair being (predecessor account,
attached amount). -/
def applyDeposits : VersionedContract → List (AccountId × Nat) → VersionedContract
  | s, [] => s
  | s, (a, amt) :: rest => applyDeposits (s.deposit a amt) rest

/-- Sum of the amounts a given account deposits in a sequence. -/
def sumFor (account : AccountId) : List (AccountId × Nat) → Nat
  | [] => 0
  | (a, amt) :: rest => (if a = account then amt else 0) + sumFor account rest

/-- A concrete V0-rooted state: funder bob with 8, one record under key "k"
in the oldest shape, as in the `with_upgrade` test of lib.rs. -/
def exampleV0State : VersionedContract :=
  .V0 { funders := fun a => if a = "bob" then some 8 else none,
        hashes := fun k => if k = "k" then some (.V0 { deposited := 1, total := 1 })
                           else none }

/-- A concrete default state: current-shape root, empty maps, nonce 0. -/
def exampleEmptyV1 : VersionedContract :=
  .V1 { funders := fun _ => none, nonce := 0, hashes := fun _ => none }

/- ------------------------------------------------------------------ -/
/- Helper lemmas                                                      -/
/- ------------------------------------------------------------------ -/

lemma deposit_funders_self (s : VersionedContract) (a : AccountId) (amt : Nat) :
    (s.deposit a amt).get_deposit a
      = some (((s.get_deposit a).getD 0 + amt) % u128MOD) := by
  cases s <;>
    simp [VersionedContract.deposit, VersionedContract.get_deposit,
      VersionedContract.funders, VersionedContract.contract_mut]

lemma deposit_funders_other (s : VersionedContract) (a x : AccountId) (amt : Nat)
    (hx : x ≠ a) :
    (s.deposit a amt).get_deposit x = s.get_deposit x := by
  cases s <;>
    simp [VersionedContract.deposit, VersionedContract.get_deposit,
      VersionedContract.funders, VersionedContract.contract_mut, hx]

lemma deposit_nonce (s : VersionedContract) (a : AccountId) (amt : Nat) :
    (s.deposit a amt).get_nonce = (s.get_nonce + 1) % u64MOD := by
  cases s <;> rfl

lemma deposit_hashes (s : VersionedContract) (a : AccountId) (amt : Nat) :
    (s.deposit a amt).hashes = s.hashes := by
  cases s <;> rfl

lemma applyDeposits_acc (A : AccountId) (ds : List (AccountId × Nat)) :
    ∀ (s : VersionedContract) (v : Nat), s.get_deposit A = some v →
      v + sumFor A ds < u128MOD →
      (applyDeposits s ds).get_deposit A = some (v + sumFor A ds) := by
  induction ds with
  | nil =>
      intro s v hv _
      simpa [applyDeposits, sumFor] using hv
  | cons p rest ih =>
      obtain ⟨a, amt⟩ := p
      intro s v hv hfit
      by_cases ha : a = A
      · subst ha
        have hsum : sumFor a ((a, amt) :: rest) = amt + sumFor a rest := by
          simp [sumFor]
        rw [hsum] at hfit
        have hstep : (s.deposit a amt).get_deposit a = some (v + amt) := by
          rw [deposit_funders_self s a amt, hv]
          have hlt : v + amt < u128MOD := by omega
          simp [Nat.mod_eq_of_lt hlt]
        have hfit2 : (v + amt) + sumFor a rest < u128MOD := by omega
        have hrec := ih (s.deposit a amt) (v + amt) hstep hfit2
        show (applyDeposits (s.deposit a amt) rest).get_deposit a
          = some (v + sumFor a ((a, amt) :: rest))
        rw [hrec, hsum, Nat.add_assoc]
      · have hAa : A ≠ a := fun h => ha h.symm
        have hsum : sumFor A ((a, amt) :: rest) = sumFor A rest := by
          simp [sumFor, ha]
        rw [hsum] at hfit
        have hpres : (s.deposit a amt).get_deposit A = some v := by
          rw [deposit_funders_other s a A amt hAa]
          exact hv
        have hrec := ih (s.deposit a amt) v hpres hfit
        show (applyDeposits (s.deposit a amt) rest).get_deposit A
          = some (v + sumFor A ((a, amt) :: rest))
        rw [hrec, hsum]

lemma applyDeposits_absent (A : AccountId) (ds : List (AccountId × Nat)) :
    ∀ s : VersionedContract, s.get_deposit A = none →
      sumFor A ds < u128MOD → A ∈ ds.map Prod.fst →
      (applyDeposits s ds).get_deposit A = some (sumFor A ds) := by
  induction ds with
  | nil =>
      intro s _ _ hmem
      simp at hmem
  | cons p rest ih =>
      obtain ⟨a, amt⟩ := p
      intro s habs hfit hmem
      by_cases ha : a = A
      · subst ha
        have hsum : sumFor a ((a, amt) :: rest) = amt + sumFor a rest := by
          simp [sumFor]
        rw [hsum] at hfit
        have hstep : (s.deposit a amt).get_deposit a = some amt := by
          rw [deposit_funders_self s a amt, habs]
          have hlt : amt < u128MOD := by omega
          simp [Nat.mod_eq_of_lt hlt]
        have hrec := applyDeposits_acc a rest (s.deposit a amt) amt hstep hfit
        show (applyDeposits (s.deposit a amt) rest).get_deposit a
          = some (sumFor a ((a, amt) :: rest))
        rw [hrec, hsum]
      · have hAa : A ≠ a := fun h => ha h.symm
        have hsum : sumFor A ((a, amt) :: rest) = sumFor A rest := by
          simp [sumFor, ha]
        rw [hsum] at hfit
        have hpres : (s.deposit a amt).get_deposit A = none := by
          rw [deposit_funders_other s a A amt hAa]
          exact habs
        have hmem2 : A ∈ rest.map Prod.fst := by
          rcases List.mem_cons.mp hmem with h | h
          · exact absurd h.symm ha
          · exact h
        have hrec := ih (s.deposit a amt) hpres hfit hmem2
        show (applyDeposits (s.deposit a amt) rest).get_deposit A
          = some (sumFor A ((a, amt) :: rest))
        rw [hrec, hsum]

/- ------------------------------------------------------------------ -/
/- Claims                                                             -/
/- ------------------------------------------------------------------ -/

/-- C1 (counterexample): the claim says a `get_record` (`get_balance`) call on
a V0-shaped record persists the upgraded form back, so a subsequent call finds
a value already tagged latest.  In the source `get_balance` takes `&self`: the
state after the call is the state before it, and on the concrete state the
stored record under "k" still carries the V0 tag (still `need_upgrade`), so a
subsequent read takes the upgrade branch again. -/
theorem C1_counterexample :
    exampleV0State.get_balance "k"
      = some { deposited := 1, total := 1, earned := 0 } ∧
    ((exampleV0State.state_after_get_balance "k").hashes "k").map
        VersionedBalances.need_upgrade = some true := by
  decide

/-- C1 (amended): `get_balance` upgrades a stale record's value on the fly and
returns the latest-shape projection, but performs no write-back: the method
takes the state read-only, so after the call the stored record under the key
still needs upgrade, and every subsequent read of a still-stale key repeats
the upgrade. -/
theorem C1_amended_no_writeback (s : VersionedContract) (k : String)
    (b : Balances) (h : s.hashes k = some (VersionedBalances.V0 b)) :
    s.get_balance k
      = some { deposited := b.deposited, total := b.total, earned := 0 } ∧
    ((s.state_after_get_balance k).hashes k).map
        VersionedBalances.need_upgrade = some true := by
  constructor
  · simp [VersionedContract.get_balance, h, VersionedBalances.need_upgrade,
      VersionedBalances.upgrade, VersionedBalances.get_balance]
  · rw [VersionedContract.state_after_get_balance, h]
    rfl

/-- C1 (witness): the amended theorem at the concrete V0-rooted state. -/
theorem C1_amended_no_writeback_witness :
    exampleV0State.get_balance "k"
      = some { deposited := 1, total := 1, earned := 0 } ∧
    ((exampleV0State.state_after_get_balance "k").hashes "k").map
        VersionedBalances.need_upgrade = some true :=
  C1_amended_no_writeback exampleV0State "k" { deposited := 1, total := 1 }
    (by decide)

/-- C2 (counterexample): the claim says the latest-shape projection
(`VersionedBalances::get_balance`) applies the upgrade step as needed and
succeeds on a V0 input.  In the source it has no upgrade step: on a V0 value
(which needs upgrade) it hits `unimplemented!()` and aborts. -/
theorem C2_counterexample :
    VersionedBalances.need_upgrade
        (VersionedBalances.V0 { deposited := 1, total := 1 }) = true ∧
    VersionedBalances.get_balance
        (VersionedBalances.V0 { deposited := 1, total := 1 }) = none := by
  decide

/-- C2 (amended): the latest-shape projection does not itself upgrade: it
aborts on any value that still needs upgrade (in particular on V0), succeeds
exactly on an already-latest V1 value returning its fields, and succeeds after
the caller applies `upgrade` first (as the service layer does). -/
theorem C2_amended_projection (v : VersionedBalances)
    (h : v.need_upgrade = true) :
    v.get_balance = none ∧ v.upgrade.get_balance.isSome = true ∧
    ∀ b : BalancesV1, (VersionedBalances.V1 b).get_balance = some b := by
  cases v with
  | V0 b => exact ⟨rfl, rfl, fun b => rfl⟩
  | V1 b => simp [VersionedBalances.need_upgrade] at h

/-- C2 (witness): the amended theorem at a concrete V0 value. -/
theorem C2_amended_projection_witness :
    VersionedBalances.get_balance
        (VersionedBalances.V0 { deposited := 2, total := 3 }) = none ∧
    (VersionedBalances.V0 { deposited := 2, total := 3 }).upgrade.get_balance.isSome
      = true := by
  have h := C2_amended_projection
    (VersionedBalances.V0 { deposited := 2, total := 3 }) rfl
  exact ⟨h.1, h.2.1⟩

/-- C3: on any V0-tagged root, `get_nonce` returns 0 (and, taking `&self`,
cannot mutate the root); the first `deposit` call produces a V1-tagged root
whose nonce reads 1. -/
theorem C3_root_upgrade_on_mutation_only (c0 : ContractV0) (a : AccountId)
    (amt : Nat) :
    (VersionedContract.V0 c0).get_nonce = 0 ∧
    ((VersionedContract.V0 c0).deposit a amt).get_nonce = 1 ∧
    ∃ c : Contract, (VersionedContract.V0 c0).deposit a amt
      = VersionedContract.V1 c := by
  refine ⟨rfl, ?_, ⟨_, rfl⟩⟩
  show (0 + 1) % u64MOD = 1
  decide

/-- C4: `add_hash` on a V0 root inserts the oldest-shape record
`{deposited: 1, total: 1}` under the given key; on a V1 root it is fatal
(`unimplemented!()`, modelled as `none`), for every key. -/
theorem C4_register_record (c0 : ContractV0) (c1 : Contract) (k : String) :
    ((VersionedContract.V0 c0).add_hash k).map (fun t => t.hashes k)
      = some (some (VersionedBalances.V0 { deposited := 1, total := 1 })) ∧
    (VersionedContract.V1 c1).add_hash k = none := by
  refine ⟨?_, rfl⟩
  simp [VersionedContract.add_hash, VersionedContract.hashes]

/-- C5: `get_balance` fails (the `expect("ERR_INVALID_KEY")` panic, modelled
as `none`) exactly when the key is absent from `hashes`; on a present V0
record it returns the upgraded latest-shape projection, and on a present V1
record it returns the stored fields. -/
theorem C5_get_record_not_found (s : VersionedContract) (k : String) :
    (s.get_balance k = none ↔ s.hashes k = none) ∧
    (∀ b : Balances, s.hashes k = some (VersionedBalances.V0 b) →
      s.get_balance k
        = some { deposited := b.deposited, total := b.total, earned := 0 }) ∧
    (∀ b : BalancesV1, s.hashes k = some (VersionedBalances.V1 b) →
      s.get_balance k = some b) := by
  refine ⟨?_, ?_, ?_⟩
  · cases hsk : s.hashes k with
    | none => simp [VersionedContract.get_balance, hsk]
    | some v =>
        cases v <;>
          simp [VersionedContract.get_balance, hsk,
            VersionedBalances.need_upgrade, VersionedBalances.upgrade,
            VersionedBalances.get_balance]
  · intro b hb
    simp [VersionedContract.get_balance, hb, VersionedBalances.need_upgrade,
      VersionedBalances.upgrade, VersionedBalances.get_balance]
  · intro b hb
    simp [VersionedContract.get_balance, hb, VersionedBalances.need_upgrade,
      VersionedBalances.get_balance]

/-- C5 (witness): the theorem at the concrete V0-rooted state, on a present
and on an absent key. -/
theorem C5_get_record_not_found_witness :
    exampleV0State.get_balance "k"
      = some { deposited := 1, total := 1, earned := 0 } ∧
    exampleV0State.get_balance "missing" = none := by
  have h1 := C5_get_record_not_found exampleV0State "k"
  have h2 := C5_get_record_not_found exampleV0State "missing"
  exact ⟨h1.2.1 { deposited := 1, total := 1 } (by decide),
    h2.1.mpr (by decide)⟩

/-- C6: upgrading a V0 entity value with fields (d, t) yields the V1 value
with deposited = d, total = t, earned = 0. -/
theorem C6_field_preservation (d t : Nat) :
    (VersionedBalances.V0 { deposited := d, total := t }).upgrade
      = VersionedBalances.V1 { deposited := d, total := t, earned := 0 } :=
  rfl

/-- C7: the latest-shape projection of `upgrade (upgrade v)` equals that of
`upgrade v` — upgrading an already-latest value changes no observable field. -/
theorem C7_upgrade_idempotent (v : VersionedBalances) :
    v.upgrade.upgrade.get_balance = v.upgrade.get_balance := by
  cases v <;> rfl

/-- C8: the root upgrade of `contract_mut` moves `funders` and `hashes`
verbatim (the whole maps are preserved as functions), and a `deposit` for
account `a` changes no funder balance of a different account `x` and changes
no stored record. -/
theorem C8_root_upgrade_frame (s : VersionedContract) (a x : AccountId)
    (amt : Nat) (hx : x ≠ a) :
    s.contract_mut.funders = s.funders ∧
    s.contract_mut.hashes = s.hashes ∧
    (s.deposit a amt).get_deposit x = s.get_deposit x ∧
    (s.deposit a amt).hashes = s.hashes := by
  refine ⟨?_, ?_, deposit_funders_other s a x amt hx, ?_⟩ <;> cases s <;> rfl

/-- C8 (witness): the frame theorem at the concrete V0-rooted state, for a
deposit by alice observed at bob. -/
theorem C8_root_upgrade_frame_witness :
    (exampleV0State.deposit "alice" 5).get_deposit "bob"
      = exampleV0State.get_deposit "bob" ∧
    (exampleV0State.deposit "alice" 5).hashes = exampleV0State.hashes := by
  have h := C8_root_upgrade_frame exampleV0State "alice" "bob" 5 (by decide)
  exact ⟨h.2.2.1, h.2.2.2⟩

/-- C9: for an account absent at the start, running any interleaved deposit
sequence containing at least one deposit by that account leaves its balance
equal to the sum of its own amounts (given the sum fits in u128); and every
single `deposit` increments the nonce by exactly 1 (given no u64 wrap). -/
theorem C9_funder_accumulation (s : VersionedContract)
    (ds : List (AccountId × Nat)) (A : AccountId)
    (habs : s.get_deposit A = none) (hmem : A ∈ ds.map Prod.fst)
    (hfit : sumFor A ds < u128MOD) :
    (applyDeposits s ds).get_deposit A = some (sumFor A ds) ∧
    ∀ (t : VersionedContract) (a : AccountId) (amt : Nat),
      t.get_nonce + 1 < u64MOD →
      (t.deposit a amt).get_nonce = t.get_nonce + 1 := by
  refine ⟨applyDeposits_absent A ds s habs hfit hmem, fun t a amt ht => ?_⟩
  rw [deposit_nonce]
  exact Nat.mod_eq_of_lt ht

/-- C9 (witness): alice deposits 10 and 20 interleaved with a deposit by bob,
starting from the empty current-shape root; alice's balance ends at 30. -/
theorem C9_funder_accumulation_witness :
    (applyDeposits exampleEmptyV1
        [("alice", 10), ("bob", 8), ("alice", 20)]).get_deposit "alice"
      = some 30 := by
  have h := C9_funder_accumulation exampleEmptyV1
    [("alice", 10), ("bob", 8), ("alice", 20)] "alice" rfl (by decide)
    (by decide)
  exact h.1.trans (by decide)

/-- C10: a deposit of amount 0 from an account with no entry is not a no-op:
`entry().or_default()` creates the entry, so `get_deposit` afterwards returns
`some 0` rather than `none`, and the nonce still increments by 1. -/
theorem C10_zero_deposit_not_noop (s : VersionedContract) (a : AccountId)
    (habs : s.get_deposit a = none) (hn : s.get_nonce + 1 < u64MOD) :
    (s.deposit a 0).get_deposit a = some 0 ∧
    (s.deposit a 0).get_nonce = s.get_nonce + 1 := by
  constructor
  · rw [deposit_funders_self s a 0, habs]
    rfl
  · rw [deposit_nonce]
    exact Nat.mod_eq_of_lt hn

/-- C10 (witness): a zero deposit by alice on the concrete V0-rooted state
creates alice's entry at 0 and moves the nonce from 0 to 1. -/
theorem C10_zero_deposit_not_noop_witness :
    (exampleV0State.deposit "alice" 0).get_deposit "alice" = some 0 ∧
    (exampleV0State.deposit "alice" 0).get_nonce
      = exampleV0State.get_nonce + 1 :=
  C10_zero_deposit_not_noop exampleV0State "alice" (by decide) (by decide)
